import Mathlib

/-!
Verification of the OSIRIS sun-sensor 3D visualisation script
(`OSIRISv2/3d-vis/vis.py`).

The script is a linear pipeline: load a CSV table into five parallel lists,
convert paired (R, theta, phi) readings to Cartesian points with a custom
spherical convention, and render two scatter series plus one connecting
segment per index.

Numeric semantics are modelled over the real numbers; CSV cells are modelled
as either a numeric value or an unparseable string, matching the two possible
outcomes of Python `float(...)` on a cell.
-/

namespace OsirisVis

open Real

/-- `np.radians`: degrees to radians, `d * (pi / 180)`. -/
noncomputable def radians (d : ℝ) : ℝ := d * (Real.pi / 180)

/-- The transform of `vis.py` lines 7-18: custom spherical convention where
theta is elevation from +X toward +Z and phi is azimuth from +X toward +Y. -/
noncomputable def spherical_to_cartesian_custom (R theta_deg phi_deg : ℝ) :
    ℝ × ℝ × ℝ :=
  let theta := radians theta_deg
  let phi := radians phi_deg
  (R * Real.cos theta * Real.cos phi,
   R * Real.cos theta * Real.sin phi,
   R * Real.sin theta)

/-- Modelled from the spec: the textbook ISO/physics spherical convention the
spec contrasts with (`z` depends on `cos theta`, the x/y projection scales by
`sin theta`), used only to show the code's convention differs from it. -/
noncomputable def sphericalToCartesianISO (R theta_deg phi_deg : ℝ) :
    ℝ × ℝ × ℝ :=
  let theta := radians theta_deg
  let phi := radians phi_deg
  (R * Real.sin theta * Real.cos phi,
   R * Real.sin theta * Real.sin phi,
   R * Real.cos theta)

/-- Squared Euclidean norm of a Cartesian triple. -/
def sqNorm (p : ℝ × ℝ × ℝ) : ℝ := p.1 ^ 2 + p.2.1 ^ 2 + p.2.2 ^ 2

/-- A CSV cell as seen by Python `float(...)`: either it parses to a number,
or it raises `ValueError` (the unparseable text is kept for the error). -/
inductive Cell where
  | numeric (v : ℝ)
  | nonNumeric (s : String)

/-- A `csv.DictReader` row: an association from header names to cells. -/
def Row : Type := List (String × Cell)

/-- The error taxonomy of the loader: `row[key]` raising `KeyError` when a
header column is absent, or `float(...)` raising `ValueError` on a
non-numeric cell.  Missing-file errors are outside the table model. -/
inductive LoadError where
  | keyError (k : String)
  | valueError (s : String)

/-- Dictionary lookup `row[key]` on a `DictReader` row. -/
def findCell : List (String × Cell) → String → Option Cell
  | [], _ => none
  | (k, c) :: rest, key => if k = key then some c else findCell rest key

/-- `float(row[key])`: `KeyError` if the column is absent, `ValueError` if the
cell does not parse, otherwise the parsed number. -/
def readCell (row : Row) (key : String) : Except LoadError ℝ :=
  match findCell row key with
  | none => Except.error (LoadError.keyError key)
  | some (Cell.numeric v) => Except.ok v
  | some (Cell.nonNumeric s) => Except.error (LoadError.valueError s)

/-- The five required header column names of `vis.py` lines 28-32. -/
def keyR : String := "R (cm)"

/-- Header name of the test-theta column. -/
def keyTestTheta : String := "Test θ (°)"

/-- Header name of the test-phi column. -/
def keyTestPhi : String := "Test φ (°)"

/-- Header name of the real-theta column. -/
def keyRealTheta : String := "Real θ (°)"

/-- Header name of the real-phi column. -/
def keyRealPhi : String := "Real φ (°)"

/-- The required columns in the order the loop body reads them. -/
def requiredKeys : List String :=
  [keyR, keyTestTheta, keyTestPhi, keyRealTheta, keyRealPhi]

/-- The body of the loader loop for one row, reading the five cells in source
order (R, test theta, test phi, real theta, real phi); the first failing read
aborts the row. -/
def loadRow (row : Row) : Except LoadError (ℝ × ℝ × ℝ × ℝ × ℝ) :=
  match readCell row keyR with
  | Except.error e => Except.error e
  | Except.ok r =>
    match readCell row keyTestTheta with
    | Except.error e => Except.error e
    | Except.ok tt =>
      match readCell row keyTestPhi with
      | Except.error e => Except.error e
      | Except.ok tp =>
        match readCell row keyRealTheta with
        | Except.error e => Except.error e
        | Except.ok rt =>
          match readCell row keyRealPhi with
          | Except.error e => Except.error e
          | Except.ok rp => Except.ok (r, tt, tp, rt, rp)

/-- The five parallel lists built by the loader loop (`vis.py` line 23). -/
structure LoadedData where
  R_list : List ℝ
  theta_test : List ℝ
  phi_test : List ℝ
  theta_real : List ℝ
  phi_real : List ℝ

/-- The loader loop over all rows in order; the first unhandled exception
aborts the run, so no partial data survives an error. -/
def loadTable : List Row → Except LoadError LoadedData
  | [] => Except.ok ⟨[], [], [], [], []⟩
  | row :: rest =>
    match loadRow row with
    | Except.error e => Except.error e
    | Except.ok (r, tt, tp, rt, rp) =>
      match loadTable rest with
      | Except.error e => Except.error e
      | Except.ok d =>
        Except.ok ⟨r :: d.R_list, tt :: d.theta_test, tp :: d.phi_test,
          rt :: d.theta_real, rp :: d.phi_real⟩

/-- Whether one row would load without an exception. -/
def rowOK (r : Row) : Bool :=
  match loadRow r with
  | Except.ok _ => true
  | Except.error _ => false

/-- Whether `row[key]` exists and holds a numeric cell. -/
def numericAt (row : Row) (key : String) : Bool :=
  match findCell row key with
  | some (Cell.numeric _) => true
  | _ => false

/-- Python `[f(a,b,c) for a,b,c in zip(as,bs,cs)]`: map a ternary function
over three zipped lists, truncating at the shortest. -/
def mapZip3 {α : Type} (f : ℝ → ℝ → ℝ → α) :
    List ℝ → List ℝ → List ℝ → List α
  | a :: as, b :: bs, c :: cs => f a b c :: mapZip3 f as bs cs
  | _, _, _ => []

/-- `test_xyz` (`vis.py` line 35). -/
noncomputable def testXYZ (d : LoadedData) : List (ℝ × ℝ × ℝ) :=
  mapZip3 spherical_to_cartesian_custom d.R_list d.theta_test d.phi_test

/-- `real_xyz` (`vis.py` line 36). -/
noncomputable def realXYZ (d : LoadedData) : List (ℝ × ℝ × ℝ) :=
  mapZip3 spherical_to_cartesian_custom d.R_list d.theta_real d.phi_real

/-- The rendered figure (`vis.py` lines 43-61): the two scatter series, one
connecting segment per zipped pair, and the axis labels and title. -/
structure Figure where
  testScatter : List (ℝ × ℝ × ℝ)
  realScatter : List (ℝ × ℝ × ℝ)
  segments : List ((ℝ × ℝ × ℝ) × (ℝ × ℝ × ℝ))
  xlabel : String
  ylabel : String
  zlabel : String
  title : String

/-- The renderer: scatters both series and draws one gray dashed segment per
`zip(test_xyz, real_xyz)` pair (`vis.py` lines 53-54). -/
def render (test real : List (ℝ × ℝ × ℝ)) : Figure :=
  { testScatter := test
    realScatter := real
    segments := List.zip test real
    xlabel := "X (cm)"
    ylabel := "Y (cm)"
    zlabel := "Z (cm)"
    title := "3D Comparison of Spherical Points (Test vs Real)" }

/-- The whole script as a pipeline: load, transform, render.  An exception in
the loader propagates and no figure is ever produced. -/
noncomputable def pipeline (rows : List Row) : Except LoadError Figure :=
  match loadTable rows with
  | Except.error e => Except.error e
  | Except.ok d => Except.ok (render (testXYZ d) (realXYZ d))

/-- The number a well-formed cell parses to (`0` as a don't-care default when
the cell is absent or unparseable; only used under a well-formedness
hypothesis). -/
def valueAt (row : Row) (key : String) : ℝ :=
  match findCell row key with
  | some (Cell.numeric v) => v
  | _ => 0

/-- A call of the transform with the surrounding program state threaded
explicitly.  The Python function body reads only its arguments and writes no
nonlocal state, so its state-passing semantics returns the state unchanged. -/
noncomputable def spherical_to_cartesian_custom_call {σ : Type} (s : σ)
    (R theta phi : ℝ) : (ℝ × ℝ × ℝ) × σ :=
  (spherical_to_cartesian_custom R theta phi, s)

/-- A well-formed sample row: all five required columns present and numeric. -/
def sampleRow : Row :=
  [(keyR, Cell.numeric 10), (keyTestTheta, Cell.numeric 30),
   (keyTestPhi, Cell.numeric 45), (keyRealTheta, Cell.numeric 32),
   (keyRealPhi, Cell.numeric 44)]

/-- A second well-formed sample row. -/
def sampleRow2 : Row :=
  [(keyR, Cell.numeric 7), (keyTestTheta, Cell.numeric 60),
   (keyTestPhi, Cell.numeric 15), (keyRealTheta, Cell.numeric 58),
   (keyRealPhi, Cell.numeric 17)]

/-- A sample row whose `R (cm)` column is missing (renamed header). -/
def rowMissingR : Row :=
  [(keyTestTheta, Cell.numeric 30), (keyTestPhi, Cell.numeric 45),
   (keyRealTheta, Cell.numeric 32), (keyRealPhi, Cell.numeric 44)]

/-- A sample row whose test-theta cell does not parse as a number. -/
def rowBadCell : Row :=
  [(keyR, Cell.numeric 10), (keyTestTheta, Cell.nonNumeric "oops"),
   (keyTestPhi, Cell.numeric 45), (keyRealTheta, Cell.numeric 32),
   (keyRealPhi, Cell.numeric 44)]

/-- The data the loader produces for the one-row table `[sampleRow]`. -/
def sampleData : LoadedData := ⟨[10], [30], [45], [32], [44]⟩

/-- C1: `spherical_to_cartesian_custom R theta phi` is exactly the triple
`(R*cos(radians theta)*cos(radians phi), R*cos(radians theta)*sin(radians phi),
R*sin(radians theta))` — the custom convention — and this convention differs
from the ISO physics convention (witnessed at `R=1, theta=0, phi=0`). -/
theorem spherical_to_cartesian_custom_formula :
    (∀ R theta phi : ℝ,
      spherical_to_cartesian_custom R theta phi =
        (R * Real.cos (theta * (Real.pi / 180)) * Real.cos (phi * (Real.pi / 180)),
         R * Real.cos (theta * (Real.pi / 180)) * Real.sin (phi * (Real.pi / 180)),
         R * Real.sin (theta * (Real.pi / 180)))) ∧
    spherical_to_cartesian_custom 1 0 0 ≠ sphericalToCartesianISO 1 0 0 := by
  constructor
  · intro R theta phi
    rfl
  · intro h
    have hx : (spherical_to_cartesian_custom 1 0 0).1 =
        (sphericalToCartesianISO 1 0 0).1 := by rw [h]
    have h0 : radians 0 = 0 := by simp [radians]
    simp only [spherical_to_cartesian_custom, sphericalToCartesianISO, h0,
      Real.cos_zero, Real.sin_zero] at hx
    norm_num at hx

/-- The transform always lands on the sphere of radius `|R|`.  Shared by the
norm claim and the paired-dataset invariant. -/
theorem sqNorm_spherical (R theta phi : ℝ) :
    sqNorm (spherical_to_cartesian_custom R theta phi) = R ^ 2 := by
  have ht : Real.sin (radians theta) ^ 2 + Real.cos (radians theta) ^ 2 = 1 :=
    Real.sin_sq_add_cos_sq (radians theta)
  have hp : Real.sin (radians phi) ^ 2 + Real.cos (radians phi) ^ 2 = 1 :=
    Real.sin_sq_add_cos_sq (radians phi)
  simp only [spherical_to_cartesian_custom, sqNorm]
  calc (R * Real.cos (radians theta) * Real.cos (radians phi)) ^ 2 +
        (R * Real.cos (radians theta) * Real.sin (radians phi)) ^ 2 +
        (R * Real.sin (radians theta)) ^ 2
      = R ^ 2 * Real.cos (radians theta) ^ 2 *
          (Real.sin (radians phi) ^ 2 + Real.cos (radians phi) ^ 2) +
        R ^ 2 * Real.sin (radians theta) ^ 2 := by ring
    _ = R ^ 2 * (Real.sin (radians theta) ^ 2 + Real.cos (radians theta) ^ 2) := by
        rw [hp]; ring
    _ = R ^ 2 := by rw [ht]; ring

/-- C2: the output of the transform always lies on the sphere of radius `|R|`:
`x^2 + y^2 + z^2 = R^2` exactly over the reals. -/
theorem spherical_to_cartesian_custom_norm (R theta phi : ℝ) :
    sqNorm (spherical_to_cartesian_custom R theta phi) = R ^ 2 :=
  sqNorm_spherical R theta phi

/-- C3: a zero radius collapses the output to the origin exactly, for every
pair of angles. -/
theorem spherical_to_cartesian_custom_zero_radius (theta phi : ℝ) :
    spherical_to_cartesian_custom 0 theta phi = (0, 0, 0) := by
  simp [spherical_to_cartesian_custom]

/-- C4: at `theta = 90` or `theta = -90` degrees the x and y components vanish
for every radius and azimuth, and `spherical_to_cartesian_custom R 90 0`
equals `(0, 0, R)` exactly. -/
theorem spherical_to_cartesian_custom_poles (R phi : ℝ) :
    ((spherical_to_cartesian_custom R 90 phi).1 = 0 ∧
     (spherical_to_cartesian_custom R 90 phi).2.1 = 0) ∧
    ((spherical_to_cartesian_custom R (-90) phi).1 = 0 ∧
     (spherical_to_cartesian_custom R (-90) phi).2.1 = 0) ∧
    spherical_to_cartesian_custom R 90 0 = (0, 0, R) := by
  have h90 : radians 90 = Real.pi / 2 := by unfold radians; ring
  have hm90 : radians (-90) = -(Real.pi / 2) := by unfold radians; ring
  have h0 : radians 0 = 0 := by simp [radians]
  refine ⟨⟨?_, ?_⟩, ⟨?_, ?_⟩, ?_⟩ <;>
    simp [spherical_to_cartesian_custom, h90, hm90, h0, Real.cos_pi_div_two,
      Real.sin_pi_div_two]

/-- A successful cell read returns exactly the numeric content of the cell. -/
theorem readCell_ok_valueAt {row : Row} {k : String} {v : ℝ}
    (h : readCell row k = Except.ok v) : valueAt row k = v := by
  unfold readCell at h
  unfold valueAt
  cases hf : findCell row k with
  | none => rw [hf] at h; cases h
  | some c =>
    cases c with
    | numeric w => rw [hf] at h; exact Except.ok.inj h
    | nonNumeric s => rw [hf] at h; cases h

/-- A successful row load means each of the five cell reads succeeded with the
corresponding component. -/
theorem loadRow_ok_parts {row : Row} {r tt tp rt rp : ℝ}
    (h : loadRow row = Except.ok (r, tt, tp, rt, rp)) :
    readCell row keyR = Except.ok r ∧
    readCell row keyTestTheta = Except.ok tt ∧
    readCell row keyTestPhi = Except.ok tp ∧
    readCell row keyRealTheta = Except.ok rt ∧
    readCell row keyRealPhi = Except.ok rp := by
  unfold loadRow at h
  cases h1 : readCell row keyR with
  | error e => rw [h1] at h; cases h
  | ok a =>
    rw [h1] at h
    cases h2 : readCell row keyTestTheta with
    | error e => rw [h2] at h; cases h
    | ok b =>
      rw [h2] at h
      cases h3 : readCell row keyTestPhi with
      | error e => rw [h3] at h; cases h
      | ok c =>
        rw [h3] at h
        cases h4 : readCell row keyRealTheta with
        | error e => rw [h4] at h; cases h
        | ok d =>
          rw [h4] at h
          cases h5 : readCell row keyRealPhi with
          | error e => rw [h5] at h; cases h
          | ok e =>
            rw [h5] at h
            injection h with h
            simp only [Prod.mk.injEq] at h
            obtain ⟨rfl, rfl, rfl, rfl, rfl⟩ := h
            exact ⟨rfl, rfl, rfl, rfl, rfl⟩

/-- A numeric cell reads successfully. -/
theorem numericAt_readCell {row : Row} {k : String}
    (h : numericAt row k = true) : ∃ v, readCell row k = Except.ok v := by
  unfold numericAt at h
  unfold readCell
  cases hf : findCell row k with
  | none => rw [hf] at h; simp at h
  | some c =>
    cases c with
    | numeric v => exact ⟨v, rfl⟩
    | nonNumeric s => rw [hf] at h; simp at h

/-- On a table of well-formed rows the loader returns exactly the five columns
read off row by row, in order. -/
theorem loadTable_eq_maps (rows : List Row)
    (h : ∀ r ∈ rows, rowOK r = true) :
    loadTable rows = Except.ok
      ⟨rows.map (fun r => valueAt r keyR),
       rows.map (fun r => valueAt r keyTestTheta),
       rows.map (fun r => valueAt r keyTestPhi),
       rows.map (fun r => valueAt r keyRealTheta),
       rows.map (fun r => valueAt r keyRealPhi)⟩ := by
  induction rows with
  | nil => rfl
  | cons row rest ih =>
    have hrow : rowOK row = true := h row (List.mem_cons_self row rest)
    have hrest := ih (fun r hr => h r (List.mem_cons_of_mem row hr))
    unfold rowOK at hrow
    cases hlr : loadRow row with
    | error e => rw [hlr] at hrow; simp at hrow
    | ok tup =>
      obtain ⟨r, tt, tp, rt, rp⟩ := tup
      obtain ⟨h1, h2, h3, h4, h5⟩ := loadRow_ok_parts hlr
      unfold loadTable
      rw [hlr, hrest]
      simp [List.map_cons, readCell_ok_valueAt h1, readCell_ok_valueAt h2,
        readCell_ok_valueAt h3, readCell_ok_valueAt h4, readCell_ok_valueAt h5]

/-- A successful load produces five lists whose length is the row count. -/
theorem loadTable_ok_lengths :
    ∀ (rows : List Row) (d : LoadedData), loadTable rows = Except.ok d →
      d.R_list.length = rows.length ∧
      d.theta_test.length = rows.length ∧
      d.phi_test.length = rows.length ∧
      d.theta_real.length = rows.length ∧
      d.phi_real.length = rows.length := by
  intro rows
  induction rows with
  | nil =>
    intro d h
    unfold loadTable at h
    cases h
    simp
  | cons row rest ih =>
    intro d h
    unfold loadTable at h
    cases hlr : loadRow row with
    | error e => rw [hlr] at h; cases h
    | ok tup =>
      obtain ⟨r, tt, tp, rt, rp⟩ := tup
      rw [hlr] at h
      cases hld : loadTable rest with
      | error e => rw [hld] at h; cases h
      | ok d2 =>
        rw [hld] at h
        cases h
        obtain ⟨l1, l2, l3, l4, l5⟩ := ih d2 hld
        simp [l1, l2, l3, l4, l5]

/-- An error below a well-formed prefix propagates through the whole load. -/
theorem loadTable_append_error (pre tail : List Row) (e : LoadError)
    (hpre : ∀ r ∈ pre, rowOK r = true)
    (htail : loadTable tail = Except.error e) :
    loadTable (pre ++ tail) = Except.error e := by
  induction pre with
  | nil => simpa using htail
  | cons row rest ih =>
    have hrow : rowOK row = true := hpre row (List.mem_cons_self row rest)
    have ih2 := ih (fun r hr => hpre r (List.mem_cons_of_mem row hr))
    unfold rowOK at hrow
    cases hlr : loadRow row with
    | error e2 => rw [hlr] at hrow; simp at hrow
    | ok tup =>
      obtain ⟨r, tt, tp, rt, rp⟩ := tup
      show loadTable (row :: (rest ++ tail)) = Except.error e
      unfold loadTable
      rw [hlr, ih2]

/-- Length of a three-way zipped map over equal-length lists. -/
theorem mapZip3_length {α : Type} (f : ℝ → ℝ → ℝ → α) :
    ∀ (as bs cs : List ℝ), as.length = bs.length → as.length = cs.length →
      (mapZip3 f as bs cs).length = as.length := by
  intro as
  induction as with
  | nil =>
    intro bs cs h1 h2
    have hb : bs = [] := List.length_eq_zero.mp h1.symm
    have hc : cs = [] := List.length_eq_zero.mp h2.symm
    subst hb; subst hc; rfl
  | cons a as ih =>
    intro bs cs h1 h2
    cases bs with
    | nil => simp at h1
    | cons b bs =>
      cases cs with
      | nil => simp at h2
      | cons c cs =>
        show (mapZip3 f (a :: as) (b :: bs) (c :: cs)).length = _
        simp only [mapZip3, List.length_cons]
        rw [ih bs cs (by simpa using h1) (by simpa using h2)]

/-- Elementwise description of the three-way zipped map. -/
theorem mapZip3_get {α : Type} (f : ℝ → ℝ → ℝ → α) :
    ∀ (as bs cs : List ℝ) (i : ℕ) (h : i < (mapZip3 f as bs cs).length)
      (ha : i < as.length) (hb : i < bs.length) (hc : i < cs.length),
      (mapZip3 f as bs cs).get ⟨i, h⟩ =
        f (as.get ⟨i, ha⟩) (bs.get ⟨i, hb⟩) (cs.get ⟨i, hc⟩) := by
  intro as
  induction as with
  | nil => intro bs cs i h ha hb hc; exact absurd ha (Nat.not_lt_zero i)
  | cons a as ih =>
    intro bs cs i h ha hb hc
    cases bs with
    | nil => exact absurd hb (Nat.not_lt_zero i)
    | cons b bs =>
      cases cs with
      | nil => exact absurd hc (Nat.not_lt_zero i)
      | cons c cs =>
        cases i with
        | zero => rfl
        | succ j =>
          have h2 : j < (mapZip3 f as bs cs).length := by
            simp only [mapZip3, List.length_cons] at h; omega
          have ha2 : j < as.length := by simp only [List.length_cons] at ha; omega
          have hb2 : j < bs.length := by simp only [List.length_cons] at hb; omega
          have hc2 : j < cs.length := by simp only [List.length_cons] at hc; omega
          exact ih bs cs j h2 ha2 hb2 hc2

/-- A row whose only defect is one missing required column makes the loop body
raise `KeyError` on exactly that column. -/
theorem loadRow_keyError {row : Row} {k : String}
    (hk : k ∈ requiredKeys) (hmiss : findCell row k = none)
    (hothers : ∀ k2 ∈ requiredKeys, k2 ≠ k → numericAt row k2 = true) :
    loadRow row = Except.error (LoadError.keyError k) := by
  have hkerr : readCell row k = Except.error (LoadError.keyError k) := by
    unfold readCell; rw [hmiss]
  simp only [requiredKeys, List.mem_cons, List.not_mem_nil, or_false] at hk
  rcases hk with rfl | rfl | rfl | rfl | rfl
  · simp [loadRow, hkerr]
  · obtain ⟨v1, hv1⟩ := numericAt_readCell
      (hothers keyR (by simp [requiredKeys]) (by decide))
    simp [loadRow, hv1, hkerr]
  · obtain ⟨v1, hv1⟩ := numericAt_readCell
      (hothers keyR (by simp [requiredKeys]) (by decide))
    obtain ⟨v2, hv2⟩ := numericAt_readCell
      (hothers keyTestTheta (by simp [requiredKeys]) (by decide))
    simp [loadRow, hv1, hv2, hkerr]
  · obtain ⟨v1, hv1⟩ := numericAt_readCell
      (hothers keyR (by simp [requiredKeys]) (by decide))
    obtain ⟨v2, hv2⟩ := numericAt_readCell
      (hothers keyTestTheta (by simp [requiredKeys]) (by decide))
    obtain ⟨v3, hv3⟩ := numericAt_readCell
      (hothers keyTestPhi (by simp [requiredKeys]) (by decide))
    simp [loadRow, hv1, hv2, hv3, hkerr]
  · obtain ⟨v1, hv1⟩ := numericAt_readCell
      (hothers keyR (by simp [requiredKeys]) (by decide))
    obtain ⟨v2, hv2⟩ := numericAt_readCell
      (hothers keyTestTheta (by simp [requiredKeys]) (by decide))
    obtain ⟨v3, hv3⟩ := numericAt_readCell
      (hothers keyTestPhi (by simp [requiredKeys]) (by decide))
    obtain ⟨v4, hv4⟩ := numericAt_readCell
      (hothers keyRealTheta (by simp [requiredKeys]) (by decide))
    simp [loadRow, hv1, hv2, hv3, hv4, hkerr]

/-- A row whose only defect is one non-numeric required cell makes the loop
body raise `ValueError` carrying that cell's text. -/
theorem loadRow_valueError {row : Row} {k s : String}
    (hk : k ∈ requiredKeys)
    (hbad : findCell row k = some (Cell.nonNumeric s))
    (hothers : ∀ k2 ∈ requiredKeys, k2 ≠ k → numericAt row k2 = true) :
    loadRow row = Except.error (LoadError.valueError s) := by
  have hverr : readCell row k = Except.error (LoadError.valueError s) := by
    unfold readCell; rw [hbad]
  simp only [requiredKeys, List.mem_cons, List.not_mem_nil, or_false] at hk
  rcases hk with rfl | rfl | rfl | rfl | rfl
  · simp [loadRow, hverr]
  · obtain ⟨v1, hv1⟩ := numericAt_readCell
      (hothers keyR (by simp [requiredKeys]) (by decide))
    simp [loadRow, hv1, hverr]
  · obtain ⟨v1, hv1⟩ := numericAt_readCell
      (hothers keyR (by simp [requiredKeys]) (by decide))
    obtain ⟨v2, hv2⟩ := numericAt_readCell
      (hothers keyTestTheta (by simp [requiredKeys]) (by decide))
    simp [loadRow, hv1, hv2, hverr]
  · obtain ⟨v1, hv1⟩ := numericAt_readCell
      (hothers keyR (by simp [requiredKeys]) (by decide))
    obtain ⟨v2, hv2⟩ := numericAt_readCell
      (hothers keyTestTheta (by simp [requiredKeys]) (by decide))
    obtain ⟨v3, hv3⟩ := numericAt_readCell
      (hothers keyTestPhi (by simp [requiredKeys]) (by decide))
    simp [loadRow, hv1, hv2, hv3, hverr]
  · obtain ⟨v1, hv1⟩ := numericAt_readCell
      (hothers keyR (by simp [requiredKeys]) (by decide))
    obtain ⟨v2, hv2⟩ := numericAt_readCell
      (hothers keyTestTheta (by simp [requiredKeys]) (by decide))
    obtain ⟨v3, hv3⟩ := numericAt_readCell
      (hothers keyTestPhi (by simp [requiredKeys]) (by decide))
    obtain ⟨v4, hv4⟩ := numericAt_readCell
      (hothers keyRealTheta (by simp [requiredKeys]) (by decide))
    simp [loadRow, hv1, hv2, hv3, hv4, hverr]

/-- C5: on a table whose rows all have the five required cells present and
numeric, the loader returns five sequences, each of length equal to the row
count, whose i-th entries are exactly the parsed cells of the i-th row, in
source-row order. -/
theorem loader_preserves_rows (rows : List Row)
    (h : ∀ r ∈ rows, rowOK r = true) :
    ∃ d : LoadedData, loadTable rows = Except.ok d ∧
      d.R_list = rows.map (fun r => valueAt r keyR) ∧
      d.theta_test = rows.map (fun r => valueAt r keyTestTheta) ∧
      d.phi_test = rows.map (fun r => valueAt r keyTestPhi) ∧
      d.theta_real = rows.map (fun r => valueAt r keyRealTheta) ∧
      d.phi_real = rows.map (fun r => valueAt r keyRealPhi) ∧
      d.R_list.length = rows.length ∧
      d.theta_test.length = rows.length ∧
      d.phi_test.length = rows.length ∧
      d.theta_real.length = rows.length ∧
      d.phi_real.length = rows.length := by
  refine ⟨_, loadTable_eq_maps rows h, rfl, rfl, rfl, rfl, rfl, ?_, ?_, ?_, ?_, ?_⟩ <;>
    simp

/-- Witness for C5 at a concrete two-row table. -/
theorem loader_preserves_rows_witness :
    (∀ r ∈ [sampleRow, sampleRow2], rowOK r = true) ∧
    (∃ d : LoadedData, loadTable [sampleRow, sampleRow2] = Except.ok d ∧
      d.R_list = [sampleRow, sampleRow2].map (fun r => valueAt r keyR) ∧
      d.theta_test = [sampleRow, sampleRow2].map (fun r => valueAt r keyTestTheta) ∧
      d.phi_test = [sampleRow, sampleRow2].map (fun r => valueAt r keyTestPhi) ∧
      d.theta_real = [sampleRow, sampleRow2].map (fun r => valueAt r keyRealTheta) ∧
      d.phi_real = [sampleRow, sampleRow2].map (fun r => valueAt r keyRealPhi) ∧
      d.R_list.length = [sampleRow, sampleRow2].length ∧
      d.theta_test.length = [sampleRow, sampleRow2].length ∧
      d.phi_test.length = [sampleRow, sampleRow2].length ∧
      d.theta_real.length = [sampleRow, sampleRow2].length ∧
      d.phi_real.length = [sampleRow, sampleRow2].length) :=
  ⟨by decide, loader_preserves_rows [sampleRow, sampleRow2] (by decide)⟩

/-- C6: a first row whose only defect is one missing required column (the
`DictReader` image of a missing or renamed header) aborts the load with a
`KeyError` naming that column, and the pipeline produces no figure. -/
theorem loader_missing_column_aborts (row : Row) (rest : List Row)
    (k : String) (hk : k ∈ requiredKeys) (hmiss : findCell row k = none)
    (hothers : ∀ k2 ∈ requiredKeys, k2 ≠ k → numericAt row k2 = true) :
    loadTable (row :: rest) = Except.error (LoadError.keyError k) ∧
    pipeline (row :: rest) = Except.error (LoadError.keyError k) := by
  have hrow := loadRow_keyError hk hmiss hothers
  have hlt : loadTable (row :: rest) = Except.error (LoadError.keyError k) := by
    unfold loadTable; rw [hrow]
  exact ⟨hlt, by unfold pipeline; rw [hlt]⟩

/-- Witness for C6 at a concrete table missing the `R (cm)` column. -/
theorem loader_missing_column_aborts_witness :
    (keyR ∈ requiredKeys ∧ findCell rowMissingR keyR = none ∧
      (∀ k2 ∈ requiredKeys, k2 ≠ keyR → numericAt rowMissingR k2 = true)) ∧
    loadTable [rowMissingR] = Except.error (LoadError.keyError keyR) ∧
    pipeline [rowMissingR] = Except.error (LoadError.keyError keyR) :=
  ⟨⟨by decide, rfl, by decide⟩,
    loader_missing_column_aborts rowMissingR [] keyR (by decide) rfl (by decide)⟩

/-- C7: a table with a well-formed prefix and then a row whose only defect is
one non-numeric required cell aborts the load with a `ValueError` carrying
that cell's text — no retry, no partial figure, no default substituted. -/
theorem loader_bad_cell_aborts (pre : List Row) (row : Row) (rest : List Row)
    (k s : String)
    (hpre : ∀ r ∈ pre, rowOK r = true)
    (hk : k ∈ requiredKeys)
    (hbad : findCell row k = some (Cell.nonNumeric s))
    (hothers : ∀ k2 ∈ requiredKeys, k2 ≠ k → numericAt row k2 = true) :
    loadTable (pre ++ row :: rest) = Except.error (LoadError.valueError s) ∧
    pipeline (pre ++ row :: rest) = Except.error (LoadError.valueError s) := by
  have hrow := loadRow_valueError hk hbad hothers
  have htail : loadTable (row :: rest) = Except.error (LoadError.valueError s) := by
    unfold loadTable; rw [hrow]
  have hlt := loadTable_append_error pre (row :: rest) _ hpre htail
  exact ⟨hlt, by unfold pipeline; rw [hlt]⟩

/-- Witness for C7 at a concrete table whose second row has a non-numeric
test-theta cell. -/
theorem loader_bad_cell_aborts_witness :
    ((∀ r ∈ [sampleRow], rowOK r = true) ∧ keyTestTheta ∈ requiredKeys ∧
      findCell rowBadCell keyTestTheta = some (Cell.nonNumeric "oops") ∧
      (∀ k2 ∈ requiredKeys, k2 ≠ keyTestTheta → numericAt rowBadCell k2 = true)) ∧
    loadTable ([sampleRow] ++ rowBadCell :: []) =
      Except.error (LoadError.valueError "oops") ∧
    pipeline ([sampleRow] ++ rowBadCell :: []) =
      Except.error (LoadError.valueError "oops") :=
  ⟨⟨by decide, by decide, rfl, by decide⟩,
    loader_bad_cell_aborts [sampleRow] rowBadCell [] keyTestTheta "oops"
      (by decide) (by decide) rfl (by decide)⟩

/-- C8: on equal-length test and real sequences of length N the renderer
issues exactly N connecting segments, the i-th joining `test[i]` to
`real[i]`. -/
theorem render_segments_pairing (test real : List (ℝ × ℝ × ℝ))
    (h : test.length = real.length) :
    (render test real).segments.length = test.length ∧
    ∀ (i : ℕ) (hsi : i < (render test real).segments.length)
      (hti : i < test.length) (hri : i < real.length),
      (render test real).segments.get ⟨i, hsi⟩ =
        (test.get ⟨i, hti⟩, real.get ⟨i, hri⟩) := by
  constructor
  · show (List.zip test real).length = test.length
    rw [List.length_zip, h, min_self]
  · intro i hsi hti hri
    exact List.get_zip

/-- Witness for C8 at concrete one-point sequences. -/
theorem render_segments_pairing_witness :
    ([((1 : ℝ), (2 : ℝ), (3 : ℝ))].length = [((4 : ℝ), (5 : ℝ), (6 : ℝ))].length) ∧
    ((render [((1 : ℝ), (2 : ℝ), (3 : ℝ))] [((4 : ℝ), (5 : ℝ), (6 : ℝ))]).segments.length =
      [((1 : ℝ), (2 : ℝ), (3 : ℝ))].length ∧
     ∀ (i : ℕ)
       (hsi : i < (render [((1 : ℝ), (2 : ℝ), (3 : ℝ))] [((4 : ℝ), (5 : ℝ), (6 : ℝ))]).segments.length)
       (hti : i < [((1 : ℝ), (2 : ℝ), (3 : ℝ))].length)
       (hri : i < [((4 : ℝ), (5 : ℝ), (6 : ℝ))].length),
       (render [((1 : ℝ), (2 : ℝ), (3 : ℝ))] [((4 : ℝ), (5 : ℝ), (6 : ℝ))]).segments.get ⟨i, hsi⟩ =
         ([((1 : ℝ), (2 : ℝ), (3 : ℝ))].get ⟨i, hti⟩, [((4 : ℝ), (5 : ℝ), (6 : ℝ))].get ⟨i, hri⟩)) :=
  ⟨rfl, render_segments_pairing [((1 : ℝ), (2 : ℝ), (3 : ℝ))] [((4 : ℝ), (5 : ℝ), (6 : ℝ))] rfl⟩

/-- C9: the transform is pure and deterministic — under explicit state
threading, two calls with the same arguments return the same triple from any
two starting states, and a call returns its state unchanged. -/
theorem spherical_to_cartesian_custom_pure {σ : Type} (s1 s2 : σ)
    (R theta phi : ℝ) :
    (spherical_to_cartesian_custom_call s1 R theta phi).1 =
      (spherical_to_cartesian_custom_call s2 R theta phi).1 ∧
    (spherical_to_cartesian_custom_call s1 R theta phi).2 = s1 :=
  ⟨rfl, rfl⟩

/-- C10: after a successful load, the derived test and real point sequences
have equal length, and at each index both points are computed from the same
radius `R_list[i]` (only the angles differ), hence both lie on the sphere of
radius `|R_list[i]|`. -/
theorem paired_points_same_sphere (rows : List Row) (d : LoadedData)
    (h : loadTable rows = Except.ok d) :
    (testXYZ d).length = (realXYZ d).length ∧
    ∀ (i : ℕ) (hti : i < (testXYZ d).length) (hri : i < (realXYZ d).length)
      (hR : i < d.R_list.length) (htt : i < d.theta_test.length)
      (htp : i < d.phi_test.length) (hrt : i < d.theta_real.length)
      (hrp : i < d.phi_real.length),
      (testXYZ d).get ⟨i, hti⟩ =
        spherical_to_cartesian_custom (d.R_list.get ⟨i, hR⟩)
          (d.theta_test.get ⟨i, htt⟩) (d.phi_test.get ⟨i, htp⟩) ∧
      (realXYZ d).get ⟨i, hri⟩ =
        spherical_to_cartesian_custom (d.R_list.get ⟨i, hR⟩)
          (d.theta_real.get ⟨i, hrt⟩) (d.phi_real.get ⟨i, hrp⟩) ∧
      sqNorm ((testXYZ d).get ⟨i, hti⟩) = d.R_list.get ⟨i, hR⟩ ^ 2 ∧
      sqNorm ((realXYZ d).get ⟨i, hri⟩) = d.R_list.get ⟨i, hR⟩ ^ 2 := by
  obtain ⟨l1, l2, l3, l4, l5⟩ := loadTable_ok_lengths rows d h
  constructor
  · have lt : (testXYZ d).length = d.R_list.length :=
      mapZip3_length spherical_to_cartesian_custom d.R_list d.theta_test
        d.phi_test (l1.trans l2.symm) (l1.trans l3.symm)
    have lr : (realXYZ d).length = d.R_list.length :=
      mapZip3_length spherical_to_cartesian_custom d.R_list d.theta_real
        d.phi_real (l1.trans l4.symm) (l1.trans l5.symm)
    exact lt.trans lr.symm
  · intro i hti hri hR htt htp hrt hrp
    have e1 : (testXYZ d).get ⟨i, hti⟩ =
        spherical_to_cartesian_custom (d.R_list.get ⟨i, hR⟩)
          (d.theta_test.get ⟨i, htt⟩) (d.phi_test.get ⟨i, htp⟩) :=
      mapZip3_get spherical_to_cartesian_custom d.R_list d.theta_test
        d.phi_test i hti hR htt htp
    have e2 : (realXYZ d).get ⟨i, hri⟩ =
        spherical_to_cartesian_custom (d.R_list.get ⟨i, hR⟩)
          (d.theta_real.get ⟨i, hrt⟩) (d.phi_real.get ⟨i, hrp⟩) :=
      mapZip3_get spherical_to_cartesian_custom d.R_list d.theta_real
        d.phi_real i hri hR hrt hrp
    exact ⟨e1, e2, by rw [e1]; exact sqNorm_spherical _ _ _,
      by rw [e2]; exact sqNorm_spherical _ _ _⟩

/-- Witness for C10 at a concrete one-row table. -/
theorem paired_points_same_sphere_witness :
    loadTable [sampleRow] = Except.ok sampleData ∧
    ((testXYZ sampleData).length = (realXYZ sampleData).length ∧
     ∀ (i : ℕ) (hti : i < (testXYZ sampleData).length)
       (hri : i < (realXYZ sampleData).length)
       (hR : i < sampleData.R_list.length)
       (htt : i < sampleData.theta_test.length)
       (htp : i < sampleData.phi_test.length)
       (hrt : i < sampleData.theta_real.length)
       (hrp : i < sampleData.phi_real.length),
       (testXYZ sampleData).get ⟨i, hti⟩ =
         spherical_to_cartesian_custom (sampleData.R_list.get ⟨i, hR⟩)
           (sampleData.theta_test.get ⟨i, htt⟩)
           (sampleData.phi_test.get ⟨i, htp⟩) ∧
       (realXYZ sampleData).get ⟨i, hri⟩ =
         spherical_to_cartesian_custom (sampleData.R_list.get ⟨i, hR⟩)
           (sampleData.theta_real.get ⟨i, hrt⟩)
           (sampleData.phi_real.get ⟨i, hrp⟩) ∧
       sqNorm ((testXYZ sampleData).get ⟨i, hti⟩) =
         sampleData.R_list.get ⟨i, hR⟩ ^ 2 ∧
       sqNorm ((realXYZ sampleData).get ⟨i, hri⟩) =
         sampleData.R_list.get ⟨i, hR⟩ ^ 2) :=
  ⟨rfl, paired_points_same_sphere [sampleRow] sampleData rfl⟩

end OsirisVis
